import Mathlib

/-!
Verification of the gRPC endpoint comparison benchmark (the stream
correlation and windowed-statistics engine).

The embedding below is a shallow model of the single-threaded event-loop
program: every callback of the JavaScript source (the per-stream data
handler, the per-stream error handler, and the availability-check timeout)
becomes an explicit state-transition function on a `BenchState` record, and
a run of the program is a fold of those transitions over a list of events.
Timestamps (`performance.now()` readings) are modelled as rationals, slots
as naturals, endpoint names as strings.  JavaScript `Map`s, whose iteration
order is insertion order, are modelled as association lists in insertion
order; the JavaScript `Set` of active endpoints is a duplicate-free list.
-/

namespace XbitBench

/-- One received slot notification: `{ endpoint: endpoint.name, slot: currentSlot, timestamp }`. -/
structure BlockData where
  endpoint : String
  slot : Nat
  timestamp : ℚ
deriving DecidableEq, Repr

/-- Per-endpoint running statistics, as initialised in the source:
`{ totalLatency: 0, latencies: [], firstReceived: 0, totalReceived: 0, isAvailable: true, hasReceivedData: false }`. -/
structure EndpointStats where
  totalLatency : ℚ
  latencies : List ℚ
  firstReceived : Nat
  totalReceived : Nat
  isAvailable : Bool
  hasReceivedData : Bool
deriving DecidableEq, Repr

/-- The four counter fields of `EndpointStats` that scoring mutates
(first-arrival count, measured count, summed latency, stored samples). -/
def counters (s : EndpointStats) : Nat × Nat × ℚ × List ℚ :=
  (s.firstReceived, s.totalReceived, s.totalLatency, s.latencies)

/-- The global mutable state of the program. -/
structure BenchState where
  blockDataBySlot : List (Nat × List BlockData)
  endpointStats : String → EndpointStats
  firstSlotReceived : String → Bool
  activeEndpoints : List String
  startedFormalStats : Bool
  pendingBlockData : List (Nat × List BlockData)

/-- The initial per-endpoint statistics record. -/
def initStats : EndpointStats :=
  { totalLatency := 0, latencies := [], firstReceived := 0, totalReceived := 0,
    isAvailable := true, hasReceivedData := false }

/-- State at program start: empty bucket maps, zeroed statistics, every
configured endpoint active (the JavaScript `Set` deduplicates names). -/
def initState (endpoints : List String) : BenchState :=
  { blockDataBySlot := []
    endpointStats := fun _ => initStats
    firstSlotReceived := fun _ => false
    activeEndpoints := endpoints.dedup
    startedFormalStats := false
    pendingBlockData := [] }

/-- Pointwise update of the statistics table at one endpoint name. -/
def setStats (f : String → EndpointStats) (ep : String) (s : EndpointStats) :
    String → EndpointStats :=
  fun x => if x = ep then s else f x

/-- `if (!m.has(k)) m.set(k, []); m.get(k).push(bd)` on an insertion-ordered map. -/
def appendAt (m : List (Nat × List BlockData)) (k : Nat) (bd : BlockData) :
    List (Nat × List BlockData) :=
  if m.any (fun p => p.1 == k) then
    m.map (fun p => if p.1 = k then (p.1, p.2 ++ [bd]) else p)
  else
    m ++ [(k, [bd])]

/-- `m.get(k)`, defaulting to the empty list for an absent key. -/
def getList (m : List (Nat × List BlockData)) (k : Nat) : List BlockData :=
  ((m.find? (fun p => p.1 == k)).map Prod.snd).getD []

/-- `Math.min(...l.map(bd => bd.timestamp))` for the nonempty lists scoring is
applied to (the empty case is unreachable in the program). -/
def minTs : List BlockData → ℚ
  | [] => 0
  | bd :: rest => rest.foldl (fun m b => min m b.timestamp) bd.timestamp

/-- First scoring pass: `l.forEach(bd => stats[bd.endpoint].totalReceived++)`. -/
def addReceived (st : String → EndpointStats) (l : List BlockData) :
    String → EndpointStats :=
  l.foldl (fun f bd =>
    setStats f bd.endpoint
      { f bd.endpoint with totalReceived := (f bd.endpoint).totalReceived + 1 }) st

/-- Second scoring pass: per event, `latency = timestamp - earliest`; a positive
latency is pushed onto the sample list and added to the latency sum, otherwise
the first-arrival counter is incremented. -/
def addLatencies (earliest : ℚ) (st : String → EndpointStats) (l : List BlockData) :
    String → EndpointStats :=
  l.foldl (fun f bd =>
    if 0 < bd.timestamp - earliest then
      setStats f bd.endpoint
        { f bd.endpoint with
          latencies := (f bd.endpoint).latencies ++ [bd.timestamp - earliest],
          totalLatency := (f bd.endpoint).totalLatency + (bd.timestamp - earliest) }
    else
      setStats f bd.endpoint
        { f bd.endpoint with firstReceived := (f bd.endpoint).firstReceived + 1 }) st

/-- Scoring a bucket's event list: the measured-count pass, then the
latency/first-arrival pass against the earliest arrival. -/
def scoreEvents (st : String → EndpointStats) (l : List BlockData) :
    String → EndpointStats :=
  addLatencies (minTs l) (addReceived st l) l

/-- One iteration of the warm-up flush loop in `processCollectedData`: keep the
bucket entries whose endpoint is currently active and has received data, and
score them when at least two remain. -/
def flushBucket (st : BenchState) (entry : Nat × List BlockData) : BenchState :=
  let activeData := entry.2.filter
    (fun bd => st.activeEndpoints.contains bd.endpoint &&
               (st.endpointStats bd.endpoint).hasReceivedData)
  if 2 ≤ activeData.length then
    { st with endpointStats := scoreEvents st.endpointStats activeData }
  else st

/-- `processCollectedData()`: flush every pending bucket, then clear the
pending map. -/
def processCollectedData (σ : BenchState) : BenchState :=
  let σ1 := σ.pendingBlockData.foldl flushBucket σ
  { σ1 with pendingBlockData := [] }

/-- The `if (!firstSlotReceived[endpoint.name])` block of the data handler:
record the first event, and start the live phase early (flushing the pending
buckets) when every configured endpoint has now received data.  The count of
endpoints with data models `Object.values(endpointStats).filter(s =>
s.hasReceivedData).length`, whose keys are the distinct endpoint names. -/
def firstEventStep (endpoints : List String) (σ : BenchState) (ep : String) : BenchState :=
  if σ.firstSlotReceived ep = false then
    let σ1 : BenchState :=
      { σ with
        firstSlotReceived := fun x => if x = ep then true else σ.firstSlotReceived x,
        endpointStats := setStats σ.endpointStats ep
          { σ.endpointStats ep with hasReceivedData := true } }
    if σ1.startedFormalStats = false ∧
        ((endpoints.dedup.filter
            (fun e => (σ1.endpointStats e).hasReceivedData)).length = endpoints.length) then
      processCollectedData { σ1 with startedFormalStats := true }
    else σ1
  else σ

/-- The data handler up to and including the unconditional
`blockDataBySlot.get(currentSlot).push(blockData)`. -/
def handleDataPre (endpoints : List String) (σ : BenchState) (ep : String)
    (k : Nat) (t : ℚ) : BenchState :=
  let σ1 := firstEventStep endpoints σ ep
  { σ1 with blockDataBySlot := appendAt σ1.blockDataBySlot k ⟨ep, k, t⟩ }

/-- The live-phase eligibility check on a bucket:
`blockDataList.length === activeEndpoints.size && allActiveReceived`. -/
def scoringCondition (σ : BenchState) (k : Nat) : Prop :=
  (getList σ.blockDataBySlot k).length = σ.activeEndpoints.length ∧
  ∀ a ∈ σ.activeEndpoints, a ∈ (getList σ.blockDataBySlot k).map (fun bd => bd.endpoint)

instance (σ : BenchState) (k : Nat) : Decidable (scoringCondition σ k) := by
  unfold scoringCondition
  exact inferInstance

/-- Whether processing a data event `(ep, k, t)` in state `σ` reaches the
live-phase scoring branch. -/
def liveScoreFires (endpoints : List String) (σ : BenchState) (ep : String)
    (k : Nat) (t : ℚ) : Prop :=
  (handleDataPre endpoints σ ep k t).startedFormalStats = true ∧
  scoringCondition (handleDataPre endpoints σ ep k t) k

instance (endpoints : List String) (σ : BenchState) (ep : String) (k : Nat) (t : ℚ) :
    Decidable (liveScoreFires endpoints σ ep k t) := by
  unfold liveScoreFires
  exact inferInstance

/-- The stream `data` callback for a slot message: first-event handling,
append to the bucket, then either buffer into the pending map (warm-up) or
run the eligibility check, score, and garbage-collect old slots (live). -/
def handleData (endpoints : List String) (σ : BenchState) (ep : String)
    (k : Nat) (t : ℚ) : BenchState :=
  let σ2 := handleDataPre endpoints σ ep k t
  if σ2.startedFormalStats = false then
    { σ2 with pendingBlockData := appendAt σ2.pendingBlockData k ⟨ep, k, t⟩ }
  else if scoringCondition σ2 k then
    let σ3 := { σ2 with endpointStats := scoreEvents σ2.endpointStats (getList σ2.blockDataBySlot k) }
    { σ3 with blockDataBySlot := σ3.blockDataBySlot.filter (fun p => decide (¬ (p.1 < k - 100))) }
  else σ2

/-- The stream `error` callback: mark the endpoint unavailable and drop it
from the active set. -/
def handleError (σ : BenchState) (ep : String) : BenchState :=
  { σ with
    endpointStats := setStats σ.endpointStats ep
      { σ.endpointStats ep with isAvailable := false },
    activeEndpoints := σ.activeEndpoints.erase ep }

/-- The marking loop of the availability-check timeout: every endpoint still
without a first event is marked unavailable and removed from the active set. -/
def timeoutMark (endpoints : List String) (σ : BenchState) : BenchState :=
  endpoints.foldl (fun st ep =>
    if st.firstSlotReceived ep = false then
      { st with
        endpointStats := setStats st.endpointStats ep
          { st.endpointStats ep with isAvailable := false },
        activeEndpoints := st.activeEndpoints.erase ep }
    else st) σ

/-- The availability-check timeout callback: demote silent endpoints, then, if
the live phase has not started and at least two endpoints remain active,
start it and flush the pending buckets. -/
def handleTimeout (endpoints : List String) (σ : BenchState) : BenchState :=
  let σ1 := timeoutMark endpoints σ
  if σ1.startedFormalStats = false ∧ 2 ≤ σ1.activeEndpoints.length then
    processCollectedData { σ1 with startedFormalStats := true }
  else σ1

/-- The externally visible events of one run: a slot data message from a
stream, a terminal stream error, and the availability-check timeout firing. -/
inductive Ev where
  | data (endpoint : String) (slot : Nat) (timestamp : ℚ)
  | streamError (endpoint : String)
  | availabilityTimeout
deriving DecidableEq, Repr

/-- Dispatch one event to its handler. -/
def step (endpoints : List String) (σ : BenchState) : Ev → BenchState
  | .data ep k t => handleData endpoints σ ep k t
  | .streamError ep => handleError σ ep
  | .availabilityTimeout => handleTimeout endpoints σ

/-- A run of the program: fold the event handlers over the event sequence,
starting from the initial state. -/
def run (endpoints : List String) (evs : List Ev) : BenchState :=
  evs.foldl (step endpoints) (initState endpoints)

/-- `stats.firstReceived / stats.totalReceived`, the first-arrival share. -/
def firstRatio (s : EndpointStats) : ℚ :=
  (s.firstReceived : ℚ) / (s.totalReceived : ℚ)

/-- `avgLatencyWhenSlower`: the latency sum divided by the number of stored
samples, or `0` when there are none. -/
def avgLatencyWhenSlower (s : EndpointStats) : ℚ :=
  if 0 < s.latencies.length then s.totalLatency / (s.latencies.length : ℚ) else 0

/-- Stable insertion into a list already sorted by `le`: the new element goes
after every element it ties with. -/
def stableInsert {α : Type} (le : α → α → Bool) (x : α) : List α → List α
  | [] => [x]
  | y :: ys => if le y x then y :: stableInsert le x ys else x :: y :: ys

/-- A stable comparison sort, modelling `Array.prototype.sort` with a
comparator (which the specification requires to be stable). -/
def jsSort {α : Type} (le : α → α → Bool) (l : List α) : List α :=
  l.foldl (fun acc x => stableInsert le x acc) []

/-- The comparator of `endTest`: `(b.first/b.total) - (a.first/a.total)`
sorts ascending, hence `a` precedes `b` exactly when
`firstRatio b ≤ firstRatio a`. -/
def sortLe (a b : String × EndpointStats) : Bool :=
  decide (firstRatio b.2 ≤ firstRatio a.2)

/-- `sortedEndpoints` of `endTest`: pair every endpoint with its statistics,
keep those with a positive measured count, and sort descending by
first-arrival share. -/
def sortedEndpoints (endpoints : List String) (stats : String → EndpointStats) :
    List (String × EndpointStats) :=
  jsSort sortLe
    ((endpoints.map (fun e => (e, stats e))).filter
      (fun p => decide (0 < p.2.totalReceived)))

/-- The report produced by `endTest`: with at least two ranked endpoints, one
line per endpoint carrying the first-arrival percentage and the average
trailing latency; otherwise the insufficient-data outcome (`none`). -/
def endTestReport (endpoints : List String) (σ : BenchState) :
    Option (List (String × ℚ × ℚ)) :=
  let sorted := sortedEndpoints endpoints σ.endpointStats
  if 2 ≤ sorted.length then
    some (sorted.map (fun p => (p.1, 100 * firstRatio p.2, avgLatencyWhenSlower p.2)))
  else none

end XbitBench

namespace XbitBench

/-
The Batteries rational-number operations are `@[irreducible]`, which blocks
elaborator-side evaluation in `decide` on concrete runs; the proofs in this
file evaluate them like any other computable definition.
-/
attribute [local semireducible] Rat.add Rat.sub Rat.mul Rat.inv Rat.ofScientific

/-! ### Structural lemmas about the state transformers -/

@[simp]
lemma setStats_same (f : String → EndpointStats) (ep : String) (s : EndpointStats) :
    setStats f ep s ep = s := by
  simp [setStats]

lemma setStats_apply (f : String → EndpointStats) (ep x : String) (s : EndpointStats) :
    setStats f ep s x = if x = ep then s else f x := rfl

@[simp]
lemma flushBucket_blockData (st : BenchState) (e : Nat × List BlockData) :
    (flushBucket st e).blockDataBySlot = st.blockDataBySlot := by
  unfold flushBucket
  dsimp only
  split <;> rfl

@[simp]
lemma flushBucket_active (st : BenchState) (e : Nat × List BlockData) :
    (flushBucket st e).activeEndpoints = st.activeEndpoints := by
  unfold flushBucket
  dsimp only
  split <;> rfl

@[simp]
lemma flushBucket_firstSlot (st : BenchState) (e : Nat × List BlockData) :
    (flushBucket st e).firstSlotReceived = st.firstSlotReceived := by
  unfold flushBucket
  dsimp only
  split <;> rfl

@[simp]
lemma flushBucket_started (st : BenchState) (e : Nat × List BlockData) :
    (flushBucket st e).startedFormalStats = st.startedFormalStats := by
  unfold flushBucket
  dsimp only
  split <;> rfl

@[simp]
lemma flushBucket_pending (st : BenchState) (e : Nat × List BlockData) :
    (flushBucket st e).pendingBlockData = st.pendingBlockData := by
  unfold flushBucket
  dsimp only
  split <;> rfl

lemma foldl_flushBucket_blockData (entries : List (Nat × List BlockData)) (st : BenchState) :
    (entries.foldl flushBucket st).blockDataBySlot = st.blockDataBySlot := by
  induction entries generalizing st with
  | nil => rfl
  | cons e rest ih => simp [List.foldl_cons, ih]

lemma foldl_flushBucket_active (entries : List (Nat × List BlockData)) (st : BenchState) :
    (entries.foldl flushBucket st).activeEndpoints = st.activeEndpoints := by
  induction entries generalizing st with
  | nil => rfl
  | cons e rest ih => simp [List.foldl_cons, ih]

lemma foldl_flushBucket_firstSlot (entries : List (Nat × List BlockData)) (st : BenchState) :
    (entries.foldl flushBucket st).firstSlotReceived = st.firstSlotReceived := by
  induction entries generalizing st with
  | nil => rfl
  | cons e rest ih => simp [List.foldl_cons, ih]

lemma foldl_flushBucket_started (entries : List (Nat × List BlockData)) (st : BenchState) :
    (entries.foldl flushBucket st).startedFormalStats = st.startedFormalStats := by
  induction entries generalizing st with
  | nil => rfl
  | cons e rest ih => simp [List.foldl_cons, ih]

@[simp]
lemma processCollectedData_blockData (σ : BenchState) :
    (processCollectedData σ).blockDataBySlot = σ.blockDataBySlot := by
  unfold processCollectedData
  simp [foldl_flushBucket_blockData]

@[simp]
lemma processCollectedData_active (σ : BenchState) :
    (processCollectedData σ).activeEndpoints = σ.activeEndpoints := by
  unfold processCollectedData
  simp [foldl_flushBucket_active]

@[simp]
lemma processCollectedData_firstSlot (σ : BenchState) :
    (processCollectedData σ).firstSlotReceived = σ.firstSlotReceived := by
  unfold processCollectedData
  simp [foldl_flushBucket_firstSlot]

@[simp]
lemma processCollectedData_started (σ : BenchState) :
    (processCollectedData σ).startedFormalStats = σ.startedFormalStats := by
  unfold processCollectedData
  simp [foldl_flushBucket_started]

@[simp]
lemma firstEventStep_blockData (endpoints : List String) (σ : BenchState) (ep : String) :
    (firstEventStep endpoints σ ep).blockDataBySlot = σ.blockDataBySlot := by
  unfold firstEventStep
  split
  · dsimp only
    split <;> simp
  · rfl

@[simp]
lemma firstEventStep_active (endpoints : List String) (σ : BenchState) (ep : String) :
    (firstEventStep endpoints σ ep).activeEndpoints = σ.activeEndpoints := by
  unfold firstEventStep
  split
  · dsimp only
    split <;> simp
  · rfl

@[simp]
lemma handleDataPre_blockData (endpoints : List String) (σ : BenchState) (ep : String)
    (k : Nat) (t : ℚ) :
    (handleDataPre endpoints σ ep k t).blockDataBySlot =
      appendAt σ.blockDataBySlot k ⟨ep, k, t⟩ := by
  unfold handleDataPre
  simp

@[simp]
lemma handleDataPre_active (endpoints : List String) (σ : BenchState) (ep : String)
    (k : Nat) (t : ℚ) :
    (handleDataPre endpoints σ ep k t).activeEndpoints = σ.activeEndpoints := by
  unfold handleDataPre
  simp

/-! ### The bucket map -/

lemma getList_map_bump (m : List (Nat × List BlockData)) (k : Nat) (bd : BlockData)
    (h : m.any (fun p => p.1 == k) = true) :
    getList (m.map (fun p => if p.1 = k then (p.1, p.2 ++ [bd]) else p)) k =
      getList m k ++ [bd] := by
  induction m with
  | nil => simp at h
  | cons p rest ih =>
    by_cases hp : p.1 = k
    · unfold getList
      simp [List.find?_cons, hp]
    · have hp' : (p.1 == k) = false := by simp [hp]
      have h2 : rest.any (fun p => p.1 == k) = true := by
        simpa [List.any_cons, hp'] using h
      unfold getList at ih ⊢
      simp only [List.map_cons, if_neg hp, List.find?_cons, hp']
      exact ih h2

lemma getList_append_new (m : List (Nat × List BlockData)) (k : Nat) (bd : BlockData)
    (h : m.any (fun p => p.1 == k) = false) :
    getList (m ++ [(k, [bd])]) k = getList m k ++ [bd] := by
  induction m with
  | nil => simp [getList]
  | cons p rest ih =>
    simp only [List.any_cons, Bool.or_eq_false_iff] at h
    unfold getList at ih ⊢
    simp only [List.cons_append, List.find?_cons, h.1]
    exact ih h.2

lemma getList_appendAt_self (m : List (Nat × List BlockData)) (k : Nat) (bd : BlockData) :
    getList (appendAt m k bd) k = getList m k ++ [bd] := by
  unfold appendAt
  by_cases h : m.any (fun p => p.1 == k)
  · rw [if_pos h]
    exact getList_map_bump m k bd h
  · rw [if_neg h]
    exact getList_append_new m k bd (Bool.not_eq_true _ |>.mp h)

/-! ### The earliest arrival -/

lemma foldl_min_le_init (xs : List BlockData) (a : ℚ) :
    xs.foldl (fun m b => min m b.timestamp) a ≤ a := by
  induction xs generalizing a with
  | nil => exact le_refl a
  | cons x rest ih =>
    exact le_trans (ih (min a x.timestamp)) (min_le_left a x.timestamp)

lemma foldl_min_le_mem (xs : List BlockData) (a : ℚ) (bd : BlockData) (h : bd ∈ xs) :
    xs.foldl (fun m b => min m b.timestamp) a ≤ bd.timestamp := by
  induction xs generalizing a with
  | nil => cases h
  | cons x rest ih =>
    rcases List.mem_cons.mp h with h1 | h2
    · subst h1
      exact le_trans (foldl_min_le_init rest (min a bd.timestamp)) (min_le_right a bd.timestamp)
    · exact ih (min a x.timestamp) h2

lemma foldl_min_attained (xs : List BlockData) (a : ℚ) :
    xs.foldl (fun m b => min m b.timestamp) a = a ∨
      ∃ bd ∈ xs, xs.foldl (fun m b => min m b.timestamp) a = bd.timestamp := by
  induction xs generalizing a with
  | nil => exact Or.inl rfl
  | cons x rest ih =>
    rcases ih (min a x.timestamp) with h | ⟨bd, hmem, heq⟩
    · rcases le_total a x.timestamp with hle | hle
      · left
        rw [List.foldl_cons, h]
        exact min_eq_left hle
      · right
        refine ⟨x, List.mem_cons_self x rest, ?_⟩
        rw [List.foldl_cons, h]
        exact min_eq_right hle
    · exact Or.inr ⟨bd, List.mem_cons_of_mem x hmem, heq⟩

lemma minTs_le (l : List BlockData) (bd : BlockData) (h : bd ∈ l) :
    minTs l ≤ bd.timestamp := by
  cases l with
  | nil => cases h
  | cons x rest =>
    rcases List.mem_cons.mp h with h1 | h2
    · subst h1
      exact foldl_min_le_init rest bd.timestamp
    · exact foldl_min_le_mem rest x.timestamp bd h2

lemma minTs_attained (l : List BlockData) (h : l ≠ []) :
    ∃ bd ∈ l, bd.timestamp = minTs l := by
  cases l with
  | nil => exact absurd rfl h
  | cons x rest =>
    rcases foldl_min_attained rest x.timestamp with h1 | ⟨bd, hmem, heq⟩
    · exact ⟨x, List.mem_cons_self x rest, h1.symm⟩
    · exact ⟨bd, List.mem_cons_of_mem x hmem, heq.symm⟩

/-! ### Exact effect of the two scoring passes -/

lemma countP_and_split (l : List BlockData) (p q : BlockData → Bool) :
    l.countP (fun bd => p bd && q bd) + l.countP (fun bd => p bd && !(q bd)) =
      l.countP p := by
  induction l with
  | nil => rfl
  | cons bd rest ih =>
    simp only [List.countP_cons]
    rcases hp : p bd with _ | _ <;> rcases hq : q bd with _ | _ <;>
      simp [hp, hq] <;> omega

lemma addReceived_spec (st : String → EndpointStats) (l : List BlockData) (ep : String) :
    addReceived st l ep =
      { st ep with
        totalReceived := (st ep).totalReceived + l.countP (fun bd => bd.endpoint == ep) } := by
  induction l generalizing st with
  | nil => simp [addReceived]
  | cons bd rest ih =>
    unfold addReceived at ih ⊢
    rw [List.foldl_cons, ih, List.countP_cons]
    by_cases h : bd.endpoint = ep
    · subst h
      simp [setStats, Nat.add_assoc, Nat.add_comm 1]
    · have h2 : (bd.endpoint == ep) = false := by simp [h]
      have h3 : ¬ ep = bd.endpoint := fun hx => h hx.symm
      simp [setStats, h3, h2]

lemma addLatencies_spec (e : ℚ) (st : String → EndpointStats) (l : List BlockData) (ep : String) :
    addLatencies e st l ep =
      { st ep with
        firstReceived := (st ep).firstReceived +
          l.countP (fun bd => bd.endpoint == ep && !(decide (0 < bd.timestamp - e))),
        latencies := (st ep).latencies ++
          (l.filter (fun bd => bd.endpoint == ep && decide (0 < bd.timestamp - e))).map
            (fun bd => bd.timestamp - e),
        totalLatency := (st ep).totalLatency +
          ((l.filter (fun bd => bd.endpoint == ep && decide (0 < bd.timestamp - e))).map
            (fun bd => bd.timestamp - e)).sum } := by
  induction l generalizing st with
  | nil => simp [addLatencies]
  | cons bd rest ih =>
    unfold addLatencies at ih ⊢
    rw [List.foldl_cons]
    by_cases hp : 0 < bd.timestamp - e
    · have hp2 : e < bd.timestamp := by linarith
      rw [if_pos hp, ih]
      by_cases hep : bd.endpoint = ep
      · subst hep
        simp [setStats, List.countP_cons, List.filter_cons, hp, hp2, List.sum_cons,
          List.append_assoc, add_assoc]
      · have h2 : (bd.endpoint == ep) = false := by simp [hep]
        have h3 : ¬ ep = bd.endpoint := fun hx => hep hx.symm
        simp [setStats, h3, List.countP_cons, List.filter_cons, h2]
    · have hp2 : ¬ e < bd.timestamp := by
        intro hc
        exact hp (by linarith)
      rw [if_neg hp, ih]
      by_cases hep : bd.endpoint = ep
      · subst hep
        simp [setStats, List.countP_cons, List.filter_cons, hp, hp2, Nat.add_assoc,
          Nat.add_comm 1]
      · have h2 : (bd.endpoint == ep) = false := by simp [hep]
        have h3 : ¬ ep = bd.endpoint := fun hx => hep hx.symm
        simp [setStats, h3, List.countP_cons, List.filter_cons, h2]

lemma scoreEvents_spec (st : String → EndpointStats) (l : List BlockData) (ep : String) :
    scoreEvents st l ep =
      { st ep with
        totalReceived := (st ep).totalReceived + l.countP (fun bd => bd.endpoint == ep),
        firstReceived := (st ep).firstReceived +
          l.countP (fun bd => bd.endpoint == ep && !(decide (0 < bd.timestamp - minTs l))),
        latencies := (st ep).latencies ++
          (l.filter (fun bd => bd.endpoint == ep && decide (0 < bd.timestamp - minTs l))).map
            (fun bd => bd.timestamp - minTs l),
        totalLatency := (st ep).totalLatency +
          ((l.filter (fun bd => bd.endpoint == ep && decide (0 < bd.timestamp - minTs l))).map
            (fun bd => bd.timestamp - minTs l)).sum } := by
  unfold scoreEvents
  rw [addLatencies_spec, addReceived_spec]

lemma scoreEvents_eq_of_countP_zero (st : String → EndpointStats) (l : List BlockData)
    (ep : String) (h : l.countP (fun bd => bd.endpoint == ep) = 0) :
    scoreEvents st l ep = st ep := by
  have hall : ∀ bd ∈ l, ¬ (bd.endpoint == ep) = true := List.countP_eq_zero.mp h
  have hc2 : l.countP (fun bd => bd.endpoint == ep && !(decide (0 < bd.timestamp - minTs l))) = 0 := by
    rw [List.countP_eq_zero]
    intro bd hbd hc
    exact hall bd hbd (Bool.and_elim_left hc)
  have hf : l.filter (fun bd => bd.endpoint == ep && decide (0 < bd.timestamp - minTs l)) = [] := by
    rw [List.filter_eq_nil_iff]
    intro bd hbd hc
    exact hall bd hbd (Bool.and_elim_left hc)
  rw [scoreEvents_spec, h, hc2, hf]
  simp

/-! ### The per-endpoint accounting invariant -/

/-- The accounting relation among the counters of one endpoint: first
arrivals plus stored samples account for every measured event, the latency
sum is the sum of the stored samples, and every stored sample is positive. -/
def statsInv (s : EndpointStats) : Prop :=
  s.firstReceived + s.latencies.length = s.totalReceived ∧
  s.totalLatency = s.latencies.sum ∧
  ∀ x ∈ s.latencies, 0 < x

lemma statsInv_of_counters_eq (s s2 : EndpointStats) (h : counters s = counters s2)
    (hs : statsInv s2) : statsInv s := by
  unfold counters at h
  obtain ⟨h1, h2, h3, h4⟩ : s.firstReceived = s2.firstReceived ∧ s.totalReceived = s2.totalReceived ∧
      s.totalLatency = s2.totalLatency ∧ s.latencies = s2.latencies := by
    simpa [Prod.ext_iff] using h
  unfold statsInv
  rw [h1, h2, h3, h4]
  exact hs

lemma statsInv_scoreEvents (st : String → EndpointStats) (l : List BlockData)
    (h : ∀ ep, statsInv (st ep)) : ∀ ep, statsInv (scoreEvents st l ep) := by
  intro ep
  obtain ⟨h1, h2, h3⟩ := h ep
  rw [scoreEvents_spec]
  refine ⟨?_, ?_, ?_⟩
  · simp only [List.length_append, List.length_map]
    rw [← List.countP_eq_length_filter]
    have hsplit := countP_and_split l (fun bd => bd.endpoint == ep)
      (fun bd => decide (0 < bd.timestamp - minTs l))
    omega
  · simp only [List.sum_append]
    rw [h2]
  · intro x hx
    rcases List.mem_append.mp hx with hx1 | hx2
    · exact h3 x hx1
    · obtain ⟨bd, hbd, hbdx⟩ := List.mem_map.mp hx2
      have := List.of_mem_filter hbd
      have hpos := of_decide_eq_true (Bool.and_elim_right this)
      rw [← hbdx]
      exact hpos

lemma statsInv_flushBucket (st : BenchState) (e : Nat × List BlockData)
    (h : ∀ ep, statsInv (st.endpointStats ep)) :
    ∀ ep, statsInv ((flushBucket st e).endpointStats ep) := by
  unfold flushBucket
  dsimp only
  split
  · exact statsInv_scoreEvents st.endpointStats _ h
  · exact h

lemma statsInv_foldl_flush (entries : List (Nat × List BlockData)) (st : BenchState)
    (h : ∀ ep, statsInv (st.endpointStats ep)) :
    ∀ ep, statsInv ((entries.foldl flushBucket st).endpointStats ep) := by
  induction entries generalizing st with
  | nil => exact h
  | cons e rest ih =>
    rw [List.foldl_cons]
    exact ih (flushBucket st e) (statsInv_flushBucket st e h)

lemma statsInv_processCollectedData (σ : BenchState)
    (h : ∀ ep, statsInv (σ.endpointStats ep)) :
    ∀ ep, statsInv ((processCollectedData σ).endpointStats ep) := by
  unfold processCollectedData
  exact statsInv_foldl_flush σ.pendingBlockData σ h

lemma statsInv_setStats_flag (f : String → EndpointStats) (q : String) (s : EndpointStats)
    (hc : counters s = counters (f q)) (h : ∀ ep, statsInv (f ep)) :
    ∀ ep, statsInv (setStats f q s ep) := by
  intro ep
  rw [setStats_apply]
  by_cases hq : ep = q
  · rw [if_pos hq]
    exact statsInv_of_counters_eq s (f q) hc (h q)
  · rw [if_neg hq]
    exact h ep

lemma statsInv_firstEventStep (endpoints : List String) (σ : BenchState) (ep : String)
    (h : ∀ x, statsInv (σ.endpointStats x)) :
    ∀ x, statsInv ((firstEventStep endpoints σ ep).endpointStats x) := by
  unfold firstEventStep
  split
  · dsimp only
    have hbase : ∀ x, statsInv
        ((setStats σ.endpointStats ep
          { σ.endpointStats ep with hasReceivedData := true }) x) :=
      statsInv_setStats_flag σ.endpointStats ep _ (by simp [counters]) h
    split
    · exact statsInv_processCollectedData _ hbase
    · exact hbase
  · exact h

lemma statsInv_handleData (endpoints : List String) (σ : BenchState) (ep : String)
    (k : Nat) (t : ℚ) (h : ∀ x, statsInv (σ.endpointStats x)) :
    ∀ x, statsInv ((handleData endpoints σ ep k t).endpointStats x) := by
  have hpre : ∀ x, statsInv ((handleDataPre endpoints σ ep k t).endpointStats x) := by
    unfold handleDataPre
    dsimp only
    exact statsInv_firstEventStep endpoints σ ep h
  unfold handleData
  dsimp only
  split
  · exact hpre
  · split
    · exact statsInv_scoreEvents _ _ hpre
    · exact hpre

lemma statsInv_step (endpoints : List String) (σ : BenchState) (e : Ev)
    (h : ∀ x, statsInv (σ.endpointStats x)) :
    ∀ x, statsInv ((step endpoints σ e).endpointStats x) := by
  cases e with
  | data ep k t => exact statsInv_handleData endpoints σ ep k t h
  | streamError ep =>
    unfold step handleError
    exact statsInv_setStats_flag σ.endpointStats ep _ (by simp [counters]) h
  | availabilityTimeout =>
    unfold step handleTimeout
    dsimp only
    have hmark : ∀ x, statsInv ((timeoutMark endpoints σ).endpointStats x) := by
      unfold timeoutMark
      induction endpoints generalizing σ with
      | nil => exact h
      | cons q rest ih =>
        rw [List.foldl_cons]
        apply ih
        split
        · exact statsInv_setStats_flag σ.endpointStats q _ (by simp [counters]) h
        · exact h
    split
    · exact statsInv_processCollectedData _ hmark
    · exact hmark

lemma statsInv_foldl (endpoints : List String) (evs : List Ev) (σ : BenchState)
    (h : ∀ x, statsInv (σ.endpointStats x)) :
    ∀ x, statsInv ((evs.foldl (step endpoints) σ).endpointStats x) := by
  induction evs generalizing σ with
  | nil => exact h
  | cons e rest ih =>
    rw [List.foldl_cons]
    exact ih (step endpoints σ e) (statsInv_step endpoints σ e h)

lemma statsInv_run (endpoints : List String) (evs : List Ev) :
    ∀ x, statsInv ((run endpoints evs).endpointStats x) := by
  unfold run
  refine statsInv_foldl endpoints evs (initState endpoints) ?_
  intro x
  exact ⟨rfl, rfl, by intro y hy; cases hy⟩

/-! ### Claims C9 and C6 -/

/-- C9 (confirmed): after any run, for every source the first-arrival count
plus the number of stored latency samples equals the measured count, and the
summed latency equals the sum of the stored samples.  Both scoring paths
(warm-up flush and live scoring) preserve this accounting. -/
theorem C9_accounting_invariant (endpoints : List String) (evs : List Ev) (ep : String) :
    ((run endpoints evs).endpointStats ep).firstReceived +
        ((run endpoints evs).endpointStats ep).latencies.length =
      ((run endpoints evs).endpointStats ep).totalReceived ∧
    ((run endpoints evs).endpointStats ep).totalLatency =
      ((run endpoints evs).endpointStats ep).latencies.sum := by
  obtain ⟨h1, h2, h3⟩ := statsInv_run endpoints evs ep
  exact ⟨h1, h2⟩

/-- C6 (confirmed): in any reachable state, every stored latency sample is
strictly positive (the zero entries of won buckets are never stored), and the
reported average latency equals the summed latency divided by the number of
strictly positive samples. -/
theorem C6_avg_over_positive_samples (endpoints : List String) (evs : List Ev) (ep : String) :
    avgLatencyWhenSlower ((run endpoints evs).endpointStats ep) =
      ((run endpoints evs).endpointStats ep).totalLatency /
        (((((run endpoints evs).endpointStats ep).latencies.filter
            (fun x => decide (0 < x))).length : ℚ)) ∧
    (((run endpoints evs).endpointStats ep).latencies.filter (fun x => decide (0 < x))) =
      ((run endpoints evs).endpointStats ep).latencies := by
  obtain ⟨h1, h2, h3⟩ := statsInv_run endpoints evs ep
  have hfilter : (((run endpoints evs).endpointStats ep).latencies.filter
      (fun x => decide (0 < x))) = ((run endpoints evs).endpointStats ep).latencies :=
    List.filter_eq_self.mpr (fun x hx => decide_eq_true (h3 x hx))
  refine ⟨?_, hfilter⟩
  rw [hfilter]
  unfold avgLatencyWhenSlower
  split
  · rfl
  · rename_i hlen
    have hnil : ((run endpoints evs).endpointStats ep).latencies = [] :=
      List.length_eq_zero.mp (Nat.eq_zero_of_not_pos hlen)
    rw [h2, hnil]
    simp

/-! ### The shape of a live-scored bucket -/

lemma images_perm_active (l : List BlockData) (active : List String)
    (hnd : active.Nodup) (hlen : l.length = active.length)
    (hall : ∀ a ∈ active, a ∈ l.map (fun bd => bd.endpoint)) :
    List.Perm (l.map (fun bd => bd.endpoint)) active := by
  have hsub : active ⊆ l.map (fun bd => bd.endpoint) := fun a ha => hall a ha
  obtain ⟨u, hu, hsubl⟩ := hnd.subperm hsub
  have hulen : u.length = (l.map (fun bd => bd.endpoint)).length := by
    rw [hu.length_eq, List.length_map, hlen]
  rw [← hsubl.eq_of_length hulen]
  exact hu

lemma scoring_images_perm (σ : BenchState) (k : Nat) (hnd : σ.activeEndpoints.Nodup)
    (hc : scoringCondition σ k) :
    List.Perm ((getList σ.blockDataBySlot k).map (fun bd => bd.endpoint))
      σ.activeEndpoints :=
  images_perm_active _ _ hnd hc.1 hc.2

lemma scoring_endpoint_mem_active (σ : BenchState) (k : Nat)
    (hnd : σ.activeEndpoints.Nodup) (hc : scoringCondition σ k)
    (bd : BlockData) (hbd : bd ∈ getList σ.blockDataBySlot k) :
    bd.endpoint ∈ σ.activeEndpoints := by
  have hmem : bd.endpoint ∈ (getList σ.blockDataBySlot k).map (fun bd => bd.endpoint) :=
    List.mem_map_of_mem _ hbd
  exact (scoring_images_perm σ k hnd hc).mem_iff.mp hmem

lemma scoring_countP_one (σ : BenchState) (k : Nat)
    (hnd : σ.activeEndpoints.Nodup) (hc : scoringCondition σ k)
    (a : String) (ha : a ∈ σ.activeEndpoints) :
    (getList σ.blockDataBySlot k).countP (fun bd => bd.endpoint == a) = 1 := by
  have h1 : (getList σ.blockDataBySlot k).countP (fun bd => bd.endpoint == a) =
      ((getList σ.blockDataBySlot k).map (fun bd => bd.endpoint)).count a := by
    rw [List.count, List.countP_map]
    rfl
  rw [h1, (scoring_images_perm σ k hnd hc).count_eq a]
  exact List.count_eq_one_of_mem hnd ha

/-! ### The live branch of the data handler -/

lemma getList_handleDataPre (endpoints : List String) (σ : BenchState) (ep : String)
    (k : Nat) (t : ℚ) :
    getList (handleDataPre endpoints σ ep k t).blockDataBySlot k =
      getList σ.blockDataBySlot k ++ [⟨ep, k, t⟩] := by
  rw [handleDataPre_blockData, getList_appendAt_self]

lemma handleData_of_fires (endpoints : List String) (σ : BenchState) (ep : String)
    (k : Nat) (t : ℚ) (h : liveScoreFires endpoints σ ep k t) :
    handleData endpoints σ ep k t =
      { handleDataPre endpoints σ ep k t with
        endpointStats := scoreEvents (handleDataPre endpoints σ ep k t).endpointStats
          (getList (handleDataPre endpoints σ ep k t).blockDataBySlot k),
        blockDataBySlot := (handleDataPre endpoints σ ep k t).blockDataBySlot.filter
          (fun p => decide (¬ (p.1 < k - 100))) } := by
  obtain ⟨hstart, hc⟩ := h
  unfold handleData
  dsimp only
  rw [if_neg (by rw [hstart]; simp), if_pos hc]

lemma handleData_of_not_fires (endpoints : List String) (σ : BenchState) (ep : String)
    (k : Nat) (t : ℚ) (hstart : (handleDataPre endpoints σ ep k t).startedFormalStats = true)
    (hc : ¬ scoringCondition (handleDataPre endpoints σ ep k t) k) :
    handleData endpoints σ ep k t = handleDataPre endpoints σ ep k t := by
  unfold handleData
  dsimp only
  rw [if_neg (by rw [hstart]; simp), if_neg hc]

/-! ### Claims C1, C3, C7, C10 -/

/-- C1 (counterexample): the claim that a bucket is scored at most once — never
both at the warm-up flush and again in live phase — is false.  In this run the
single event from source A (slot 5) is scored at the warm-up flush triggered by
the early live-phase start (buckets with 2 of the 3 active contributors are
flushed), and bucket 5 stays in the bucket map; when C later completes bucket 5
in live phase, the bucket is scored a second time, so A ends with
`totalReceived = 2` from one event. -/
theorem C1_counterexample :
    ((run ["A", "B", "C"] [Ev.data "A" 5 10, Ev.data "B" 5 20, Ev.data "C" 7 30,
        Ev.data "C" 5 40]).endpointStats "A").totalReceived = 2 ∧
    ((run ["A", "B", "C"] [Ev.data "A" 5 10, Ev.data "B" 5 20, Ev.data "C" 7 30,
        Ev.data "C" 5 40]).endpointStats "A").firstReceived = 2 ∧
    ([Ev.data "A" 5 10, Ev.data "B" 5 20, Ev.data "C" 7 30, Ev.data "C" 5 40].countP
      (fun e => match e with
        | Ev.data n _ _ => n == "A"
        | _ => false)) = 1 := by
  decide

/-- C1 (amended): within the live phase a bucket that already holds at least as
many events as there are active sources — in particular a bucket that was just
live-scored, whose length then equals the active-set size — is never scored
again by a further (replayed) event for its key while it remains in the map:
the appended event makes the list strictly longer than the active set, so the
size-equality check fails.  (Re-scoring remains possible only for a bucket that
was flushed during warm-up, or one recreated after garbage collection.) -/
theorem C1_no_rescore_while_present (endpoints : List String) (σ : BenchState)
    (ep : String) (k : Nat) (t : ℚ)
    (h : σ.activeEndpoints.length ≤ (getList σ.blockDataBySlot k).length) :
    ¬ liveScoreFires endpoints σ ep k t := by
  intro hf
  obtain ⟨hstart, hlen, hall⟩ := hf
  rw [getList_handleDataPre, List.length_append, handleDataPre_active] at hlen
  simp only [List.length_singleton] at hlen
  omega

/-- Witness for `C1_no_rescore_while_present`: after a run in which bucket 1
was live-scored (its list holds one event per active source), replaying a
duplicate event for slot 1 does not re-trigger scoring. -/
theorem C1_witness :
    (run ["A", "B"] [Ev.data "A" 1 10, Ev.data "B" 1 11]).activeEndpoints.length ≤
      (getList (run ["A", "B"] [Ev.data "A" 1 10,
        Ev.data "B" 1 11]).blockDataBySlot 1).length ∧
    ¬ liveScoreFires ["A", "B"] (run ["A", "B"] [Ev.data "A" 1 10, Ev.data "B" 1 11])
      "A" 1 12 :=
  ⟨by decide, C1_no_rescore_while_present ["A", "B"]
    (run ["A", "B"] [Ev.data "A" 1 10, Ev.data "B" 1 11]) "A" 1 12 (by decide)⟩

/-- C3 (counterexample): the claim that a bucket contributed to by a source
that then goes inactive is still scored once every remaining active source has
contributed is false.  Here C contributes to bucket 5 and then errors out;
after both remaining active sources A and B contribute, the bucket holds 3
events while the active set has 2 members, the size-equality check fails
forever, and nobody's measured count ever rises. -/
theorem C3_counterexample :
    ((run ["A", "B", "C"] [Ev.data "A" 1 10, Ev.data "B" 2 11, Ev.data "C" 3 12,
        Ev.data "C" 5 20, Ev.streamError "C", Ev.data "A" 5 21,
        Ev.data "B" 5 22]).endpointStats "A").totalReceived = 0 ∧
    ((run ["A", "B", "C"] [Ev.data "A" 1 10, Ev.data "B" 2 11, Ev.data "C" 3 12,
        Ev.data "C" 5 20, Ev.streamError "C", Ev.data "A" 5 21,
        Ev.data "B" 5 22]).endpointStats "B").totalReceived = 0 ∧
    (getList (run ["A", "B", "C"] [Ev.data "A" 1 10, Ev.data "B" 2 11, Ev.data "C" 3 12,
        Ev.data "C" 5 20, Ev.streamError "C", Ev.data "A" 5 21,
        Ev.data "B" 5 22]).blockDataBySlot 5).length = 3 ∧
    (run ["A", "B", "C"] [Ev.data "A" 1 10, Ev.data "B" 2 11, Ev.data "C" 3 12,
        Ev.data "C" 5 20, Ev.streamError "C", Ev.data "A" 5 21,
        Ev.data "B" 5 22]).activeEndpoints = ["A", "B"] ∧
    (run ["A", "B", "C"] [Ev.data "A" 1 10, Ev.data "B" 2 11, Ev.data "C" 3 12,
        Ev.data "C" 5 20, Ev.streamError "C", Ev.data "A" 5 21,
        Ev.data "B" 5 22]).startedFormalStats = true := by
  decide

/-- C3 (amended): a bucket holding an event from a source that is not in the
current active set is never scored in live phase: were the eligibility check
to pass, the event list would be a system of one event per active source, so
no event of an inactive source could be in it.  Such a bucket can only leave
the map via garbage collection, unscored. -/
theorem C3_inactive_contributor_blocks_scoring (endpoints : List String)
    (σ : BenchState) (ep : String) (k : Nat) (t : ℚ) (bd : BlockData)
    (hnd : σ.activeEndpoints.Nodup)
    (hbd : bd ∈ getList σ.blockDataBySlot k)
    (hni : bd.endpoint ∉ σ.activeEndpoints) :
    ¬ liveScoreFires endpoints σ ep k t := by
  intro hf
  obtain ⟨hstart, hc⟩ := hf
  have hnd2 : (handleDataPre endpoints σ ep k t).activeEndpoints.Nodup := by
    rw [handleDataPre_active]
    exact hnd
  have hbd2 : bd ∈ getList (handleDataPre endpoints σ ep k t).blockDataBySlot k := by
    rw [getList_handleDataPre]
    exact List.mem_append_left _ hbd
  have hmem := scoring_endpoint_mem_active _ k hnd2 hc bd hbd2
  rw [handleDataPre_active] at hmem
  exact hni hmem

/-- Witness for `C3_inactive_contributor_blocks_scoring`: in the C3 scenario,
B's completing event for bucket 5 does not fire the scoring branch because the
now-inactive C has an event in the bucket. -/
theorem C3_witness :
    (run ["A", "B", "C"] [Ev.data "A" 1 10, Ev.data "B" 2 11, Ev.data "C" 3 12,
        Ev.data "C" 5 20, Ev.streamError "C",
        Ev.data "A" 5 21]).activeEndpoints.Nodup ∧
    (⟨"C", 5, 20⟩ : BlockData) ∈ getList (run ["A", "B", "C"] [Ev.data "A" 1 10,
        Ev.data "B" 2 11, Ev.data "C" 3 12, Ev.data "C" 5 20, Ev.streamError "C",
        Ev.data "A" 5 21]).blockDataBySlot 5 ∧
    (⟨"C", 5, 20⟩ : BlockData).endpoint ∉ (run ["A", "B", "C"] [Ev.data "A" 1 10,
        Ev.data "B" 2 11, Ev.data "C" 3 12, Ev.data "C" 5 20, Ev.streamError "C",
        Ev.data "A" 5 21]).activeEndpoints ∧
    ¬ liveScoreFires ["A", "B", "C"] (run ["A", "B", "C"] [Ev.data "A" 1 10,
        Ev.data "B" 2 11, Ev.data "C" 3 12, Ev.data "C" 5 20, Ev.streamError "C",
        Ev.data "A" 5 21]) "B" 5 22 :=
  ⟨by decide, by decide, by decide,
    C3_inactive_contributor_blocks_scoring ["A", "B", "C"]
      (run ["A", "B", "C"] [Ev.data "A" 1 10, Ev.data "B" 2 11, Ev.data "C" 3 12,
        Ev.data "C" 5 20, Ev.streamError "C", Ev.data "A" 5 21]) "B" 5 22
      ⟨"C", 5, 20⟩ (by decide) (by decide) (by decide)⟩

/-- C7 (counterexample): the claim that after processing events up to a maximum
key K no bucket older than K − 100 remains is false.  Garbage collection runs
only inside the live scoring branch; here no bucket ever becomes eligible, so
after seeing key 300 the bucket for key 0 (older than 300 − 100) is still in
the map. -/
theorem C7_counterexample :
    (run ["A", "B"] [Ev.data "A" 0 10, Ev.data "B" 300 11,
        Ev.data "A" 200 12]).blockDataBySlot.map Prod.fst = [0, 300, 200] ∧
    (run ["A", "B"] [Ev.data "A" 0 10, Ev.data "B" 300 11,
        Ev.data "A" 200 12]).startedFormalStats = true ∧
    (0 : Nat) < 300 - 100 := by
  decide

/-- C7 (amended): eviction of old buckets happens exactly when a live-phase
scoring fires: immediately after a scoring triggered by an event with key `k`,
no bucket with key smaller than `k - 100` remains in the map.  Between
scorings (and during the whole warm-up phase) stale buckets can persist. -/
theorem C7_gc_after_scoring (endpoints : List String) (σ : BenchState) (ep : String)
    (k : Nat) (t : ℚ) (h : liveScoreFires endpoints σ ep k t) :
    (handleData endpoints σ ep k t).blockDataBySlot.filter
      (fun p => decide (p.1 < k - 100)) = [] := by
  rw [handleData_of_fires endpoints σ ep k t h]
  dsimp only
  rw [List.filter_filter]
  rw [List.filter_eq_nil_iff]
  intro p hp hcon
  rw [Bool.and_eq_true, decide_eq_true_iff, decide_eq_true_iff] at hcon
  exact hcon.2 hcon.1

/-- Witness for `C7_gc_after_scoring`: completing bucket 2 fires live scoring,
and afterwards no bucket older than `2 - 100` remains. -/
theorem C7_witness :
    liveScoreFires ["A", "B"] (run ["A", "B"] [Ev.data "A" 1 10, Ev.data "B" 2 11])
      "A" 2 12 ∧
    (handleData ["A", "B"] (run ["A", "B"] [Ev.data "A" 1 10, Ev.data "B" 2 11])
      "A" 2 12).blockDataBySlot.filter (fun p => decide (p.1 < 2 - 100)) = [] :=
  ⟨by decide, C7_gc_after_scoring ["A", "B"]
    (run ["A", "B"] [Ev.data "A" 1 10, Ev.data "B" 2 11]) "A" 2 12 (by decide)⟩

/-- C10 (confirmed): whenever the live-phase scoring branch fires for a bucket,
the bucket's event list holds exactly one event from each currently active
source and none from any other source, and consequently the live scoring
increments each active source's measured count by exactly one. -/
theorem C10_live_quorum_shape (endpoints : List String) (σ : BenchState) (ep : String)
    (k : Nat) (t : ℚ) (hnd : σ.activeEndpoints.Nodup)
    (hf : liveScoreFires endpoints σ ep k t) :
    (∀ bd ∈ getList (handleDataPre endpoints σ ep k t).blockDataBySlot k,
        bd.endpoint ∈ σ.activeEndpoints) ∧
    (∀ a ∈ σ.activeEndpoints,
        (getList (handleDataPre endpoints σ ep k t).blockDataBySlot k).countP
          (fun bd => bd.endpoint == a) = 1) ∧
    (∀ a ∈ σ.activeEndpoints,
        ((handleData endpoints σ ep k t).endpointStats a).totalReceived =
          ((handleDataPre endpoints σ ep k t).endpointStats a).totalReceived + 1) := by
  obtain ⟨hstart, hc⟩ := hf
  have hnd2 : (handleDataPre endpoints σ ep k t).activeEndpoints.Nodup := by
    rw [handleDataPre_active]
    exact hnd
  refine ⟨?_, ?_, ?_⟩
  · intro bd hbd
    have := scoring_endpoint_mem_active _ k hnd2 hc bd hbd
    rwa [handleDataPre_active] at this
  · intro a ha
    refine scoring_countP_one _ k hnd2 hc a ?_
    rw [handleDataPre_active]
    exact ha
  · intro a ha
    rw [handleData_of_fires endpoints σ ep k t ⟨hstart, hc⟩]
    dsimp only
    rw [scoreEvents_spec]
    dsimp only
    rw [scoring_countP_one _ k hnd2 hc a (by rw [handleDataPre_active]; exact ha)]

/-- Witness for `C10_live_quorum_shape` at a concrete fired scoring. -/
theorem C10_witness :
    (run ["A", "B"] [Ev.data "A" 1 10, Ev.data "B" 2 11]).activeEndpoints.Nodup ∧
    liveScoreFires ["A", "B"] (run ["A", "B"] [Ev.data "A" 1 10, Ev.data "B" 2 11])
      "A" 2 12 ∧
    (∀ a ∈ (run ["A", "B"] [Ev.data "A" 1 10, Ev.data "B" 2 11]).activeEndpoints,
        ((handleData ["A", "B"] (run ["A", "B"] [Ev.data "A" 1 10, Ev.data "B" 2 11])
            "A" 2 12).endpointStats a).totalReceived =
          ((handleDataPre ["A", "B"] (run ["A", "B"] [Ev.data "A" 1 10,
            Ev.data "B" 2 11]) "A" 2 12).endpointStats a).totalReceived + 1) :=
  ⟨by decide, by decide,
    (C10_live_quorum_shape ["A", "B"]
      (run ["A", "B"] [Ev.data "A" 1 10, Ev.data "B" 2 11]) "A" 2 12
      (by decide) (by decide)).2.2⟩

/-! ### Claim C2 -/

/-- C2 (counterexample): the claim that exactly one contributing source per
scored bucket is assigned latency 0 — with equal-timestamp ties broken by
arrival order — is false.  When two contributing events carry equal arrival
timestamps, both latencies are `0`, the `latency > 0` test fails for both, and
both sources get their first-arrival count incremented: here the only scored
bucket (slot 1) yields `firstReceived = 1` for both A and B. -/
theorem C2_counterexample :
    ((run ["A", "B"] [Ev.data "A" 1 10,
        Ev.data "B" 1 10]).endpointStats "A").firstReceived = 1 ∧
    ((run ["A", "B"] [Ev.data "A" 1 10,
        Ev.data "B" 1 10]).endpointStats "B").firstReceived = 1 ∧
    ((run ["A", "B"] [Ev.data "A" 1 10,
        Ev.data "B" 1 10]).endpointStats "A").totalReceived = 1 ∧
    ((run ["A", "B"] [Ev.data "A" 1 10,
        Ev.data "B" 1 10]).endpointStats "B").totalReceived = 1 := by
  decide

/-- C2 (amended): in any scored bucket every assigned latency is nonnegative,
at least one contributing event is assigned latency 0, and the first-arrival
counter of a source rises by exactly the number of its events achieving the
earliest timestamp — so on an equal-timestamp tie every tying event earns a
first-arrival credit, rather than exactly one chosen by arrival order. -/
theorem C2_latency_nonneg_ties_all_first (st : String → EndpointStats)
    (l : List BlockData) (h : l ≠ []) :
    (∀ bd ∈ l, 0 ≤ bd.timestamp - minTs l) ∧
    (∃ bd ∈ l, bd.timestamp - minTs l = 0) ∧
    (∀ ep, (scoreEvents st l ep).firstReceived =
      (st ep).firstReceived +
        l.countP (fun bd => bd.endpoint == ep && decide (bd.timestamp ≤ minTs l))) := by
  refine ⟨?_, ?_, ?_⟩
  · intro bd hbd
    rw [sub_nonneg]
    exact minTs_le l bd hbd
  · obtain ⟨bd, hbd, heq⟩ := minTs_attained l h
    exact ⟨bd, hbd, by rw [heq, sub_self]⟩
  · intro ep
    have hpt : (fun bd : BlockData => bd.endpoint == ep &&
        !(decide (0 < bd.timestamp - minTs l))) =
        (fun bd : BlockData => bd.endpoint == ep && decide (bd.timestamp ≤ minTs l)) := by
      funext bd
      congr 1
      rw [← decide_not]
      exact decide_eq_decide.mpr (by rw [not_lt, sub_nonpos])
    rw [scoreEvents_spec]
    dsimp only
    rw [hpt]

/-- Witness for `C2_latency_nonneg_ties_all_first` on a concrete two-event
tie bucket. -/
theorem C2_witness :
    ([⟨"A", 1, 10⟩, ⟨"B", 1, 10⟩] : List BlockData) ≠ [] ∧
    ((∀ bd ∈ ([⟨"A", 1, 10⟩, ⟨"B", 1, 10⟩] : List BlockData),
        0 ≤ bd.timestamp - minTs [⟨"A", 1, 10⟩, ⟨"B", 1, 10⟩]) ∧
      (∃ bd ∈ ([⟨"A", 1, 10⟩, ⟨"B", 1, 10⟩] : List BlockData),
        bd.timestamp - minTs [⟨"A", 1, 10⟩, ⟨"B", 1, 10⟩] = 0) ∧
      (∀ ep, (scoreEvents (fun _ => initStats)
          [⟨"A", 1, 10⟩, ⟨"B", 1, 10⟩] ep).firstReceived =
        ((fun _ => initStats) ep).firstReceived +
          ([⟨"A", 1, 10⟩, ⟨"B", 1, 10⟩] : List BlockData).countP
            (fun bd => bd.endpoint == ep &&
              decide (bd.timestamp ≤ minTs [⟨"A", 1, 10⟩, ⟨"B", 1, 10⟩])))) :=
  ⟨by decide,
    C2_latency_nonneg_ties_all_first (fun _ => initStats)
      [⟨"A", 1, 10⟩, ⟨"B", 1, 10⟩] (by decide)⟩

/-! ### Claim C4 -/

/-- C4 (counterexample): the claim that end-of-test flushes and scores every
pending bucket with at least 2 active contributors before the final snapshot
is false.  Here bucket 5 holds events from 2 of the 3 active sources when the
run ends; `endTest` performs no flush, every measured count is still 0, and
the report is the insufficient-data outcome instead of a two-source ranking. -/
theorem C4_counterexample :
    (getList (run ["A", "B", "C"] [Ev.data "A" 1 10, Ev.data "B" 2 11,
        Ev.data "C" 3 12, Ev.data "A" 5 20,
        Ev.data "B" 5 21]).blockDataBySlot 5).length = 2 ∧
    (run ["A", "B", "C"] [Ev.data "A" 1 10, Ev.data "B" 2 11, Ev.data "C" 3 12,
        Ev.data "A" 5 20, Ev.data "B" 5 21]).activeEndpoints.length = 3 ∧
    (run ["A", "B", "C"] [Ev.data "A" 1 10, Ev.data "B" 2 11, Ev.data "C" 3 12,
        Ev.data "A" 5 20, Ev.data "B" 5 21]).startedFormalStats = true ∧
    endTestReport ["A", "B", "C"] (run ["A", "B", "C"] [Ev.data "A" 1 10,
        Ev.data "B" 2 11, Ev.data "C" 3 12, Ev.data "A" 5 20,
        Ev.data "B" 5 21]) = none := by
  decide

/-- C4 (amended): on end-of-test the timers are stopped and the connections
closed, but no final flush happens: the report is computed from the
already-accumulated per-source statistics alone, so two states with the same
statistics produce the same report no matter which buckets are still pending
scoring, and already-scored results are preserved. -/
theorem C4_report_depends_only_on_stats (endpoints : List String)
    (σ1 σ2 : BenchState) (h : σ1.endpointStats = σ2.endpointStats) :
    endTestReport endpoints σ1 = endTestReport endpoints σ2 := by
  unfold endTestReport sortedEndpoints
  rw [h]

/-- Witness for `C4_report_depends_only_on_stats`: the report ignores the
bucket maps entirely — a state holding a pending two-contributor bucket
reports exactly as the same state with every bucket dropped. -/
theorem C4_witness :
    (run ["A", "B", "C"] [Ev.data "A" 1 10, Ev.data "B" 2 11, Ev.data "C" 3 12,
        Ev.data "A" 5 20, Ev.data "B" 5 21]).endpointStats =
      { run ["A", "B", "C"] [Ev.data "A" 1 10, Ev.data "B" 2 11, Ev.data "C" 3 12,
          Ev.data "A" 5 20, Ev.data "B" 5 21] with
        blockDataBySlot := [], pendingBlockData := [] }.endpointStats ∧
    endTestReport ["A", "B", "C"] (run ["A", "B", "C"] [Ev.data "A" 1 10,
        Ev.data "B" 2 11, Ev.data "C" 3 12, Ev.data "A" 5 20, Ev.data "B" 5 21]) =
      endTestReport ["A", "B", "C"]
        { run ["A", "B", "C"] [Ev.data "A" 1 10, Ev.data "B" 2 11, Ev.data "C" 3 12,
            Ev.data "A" 5 20, Ev.data "B" 5 21] with
          blockDataBySlot := [], pendingBlockData := [] } :=
  ⟨rfl, C4_report_depends_only_on_stats ["A", "B", "C"] _ _ rfl⟩

/-! ### The stable sort of the final ranking -/

lemma stableInsert_perm {α : Type} (le : α → α → Bool) (x : α) (l : List α) :
    List.Perm (stableInsert le x l) (x :: l) := by
  induction l with
  | nil => exact List.Perm.refl _
  | cons y ys ih =>
    unfold stableInsert
    split
    · exact (ih.cons y).trans (List.Perm.swap x y ys)
    · exact List.Perm.refl _

lemma jsSort_perm_aux {α : Type} (le : α → α → Bool) (xs acc : List α) :
    List.Perm (xs.foldl (fun a x => stableInsert le x a) acc) (acc ++ xs) := by
  induction xs generalizing acc with
  | nil => simp
  | cons x rest ih =>
    rw [List.foldl_cons]
    refine ((ih (stableInsert le x acc)).trans ?_)
    refine (((stableInsert_perm le x acc).append_right rest).trans ?_)
    rw [List.cons_append]
    exact List.perm_middle.symm

lemma jsSort_perm {α : Type} (le : α → α → Bool) (l : List α) :
    List.Perm (jsSort le l) l := by
  unfold jsSort
  simpa using jsSort_perm_aux le l []

lemma stableInsert_sorted {α : Type} (key : α → ℚ) (x : α) (l : List α)
    (h : List.Pairwise (fun a b => key b ≤ key a) l) :
    List.Pairwise (fun a b => key b ≤ key a)
      (stableInsert (fun a b => decide (key b ≤ key a)) x l) := by
  induction l with
  | nil => simp [stableInsert]
  | cons y ys ih =>
    rw [List.pairwise_cons] at h
    unfold stableInsert
    split
    · rename_i hle
      rw [List.pairwise_cons]
      refine ⟨?_, ih h.2⟩
      intro z hz
      have hz2 := (stableInsert_perm _ x ys).mem_iff.mp hz
      rcases List.mem_cons.mp hz2 with hz3 | hz3
      · rw [hz3]
        exact of_decide_eq_true hle
      · exact h.1 z hz3
    · rename_i hle
      have hxy : key y < key x := by
        rw [decide_eq_true_iff] at hle
        exact lt_of_not_le hle
      rw [List.pairwise_cons]
      refine ⟨?_, List.pairwise_cons.mpr h⟩
      intro z hz
      rcases List.mem_cons.mp hz with hz3 | hz3
      · rw [hz3]
        exact le_of_lt hxy
      · exact le_trans (h.1 z hz3) (le_of_lt hxy)

lemma jsSort_sorted_aux {α : Type} (key : α → ℚ) (xs acc : List α)
    (hs : List.Pairwise (fun a b => key b ≤ key a) acc) :
    List.Pairwise (fun a b => key b ≤ key a)
      (xs.foldl (fun a x => stableInsert (fun a b => decide (key b ≤ key a)) x a) acc) := by
  induction xs generalizing acc with
  | nil => exact hs
  | cons x rest ih =>
    rw [List.foldl_cons]
    exact ih (stableInsert (fun a b => decide (key b ≤ key a)) x acc)
      (stableInsert_sorted key x acc hs)

lemma jsSort_sorted {α : Type} (key : α → ℚ) (l : List α) :
    List.Pairwise (fun a b => key b ≤ key a)
      (jsSort (fun a b => decide (key b ≤ key a)) l) := by
  unfold jsSort
  exact jsSort_sorted_aux key l [] (List.Pairwise.nil)

lemma stableInsert_filter {α : Type} (key : α → ℚ) (c : ℚ) (x : α) (l : List α)
    (h : List.Pairwise (fun a b => key b ≤ key a) l) :
    (stableInsert (fun a b => decide (key b ≤ key a)) x l).filter
        (fun a => decide (key a = c)) =
      if key x = c then l.filter (fun a => decide (key a = c)) ++ [x]
      else l.filter (fun a => decide (key a = c)) := by
  induction l with
  | nil => by_cases hc : key x = c <;> simp [stableInsert, hc]
  | cons y ys ih =>
    rw [List.pairwise_cons] at h
    unfold stableInsert
    split
    · rename_i hle
      rw [List.filter_cons, ih h.2]
      by_cases hc : key x = c
      · by_cases hyc : key y = c <;> simp [hc, hyc]
      · by_cases hyc : key y = c <;> simp [hc, hyc]
    · rename_i hle
      have hxy : key y < key x := by
        rw [decide_eq_true_iff] at hle
        exact lt_of_not_le hle
      by_cases hc : key x = c
      · have hyc : ¬ key y = c := by
          intro hyc
          rw [hc] at hxy
          rw [hyc] at hxy
          exact lt_irrefl c hxy
        have hys : ys.filter (fun a => decide (key a = c)) = [] := by
          rw [List.filter_eq_nil_iff]
          intro z hz hzc
          rw [decide_eq_true_iff] at hzc
          have hzy : key z ≤ key y := h.1 z hz
          rw [hzc] at hzy
          rw [hc] at hxy
          exact absurd (lt_of_le_of_lt hzy hxy) (lt_irrefl c)
        simp [List.filter_cons, hc, hyc, hys]
      · simp [List.filter_cons, hc]

lemma jsSort_filter_aux {α : Type} (key : α → ℚ) (c : ℚ) (xs acc : List α)
    (hs : List.Pairwise (fun a b => key b ≤ key a) acc) :
    (xs.foldl (fun a x => stableInsert (fun a b => decide (key b ≤ key a)) x a)
        acc).filter (fun a => decide (key a = c)) =
      acc.filter (fun a => decide (key a = c)) ++ xs.filter (fun a => decide (key a = c)) := by
  induction xs generalizing acc with
  | nil => simp
  | cons x rest ih =>
    rw [List.foldl_cons, ih _ (stableInsert_sorted key x acc hs),
      stableInsert_filter key c x acc hs, List.filter_cons]
    by_cases hc : key x = c
    · simp [hc]
    · simp [hc]

lemma jsSort_filter {α : Type} (key : α → ℚ) (c : ℚ) (l : List α) :
    (jsSort (fun a b => decide (key b ≤ key a)) l).filter (fun a => decide (key a = c)) =
      l.filter (fun a => decide (key a = c)) := by
  unfold jsSort
  simpa using jsSort_filter_aux key c l [] List.Pairwise.nil

/-! ### Claim C5 -/

/-- C5 (counterexample): the claim that ranking ties on first-arrival
percentage are broken by ascending average trailing latency is false.  In this
run A and B tie at 50% first arrivals while B's average trailing latency (1ms)
is far below A's (5ms); the claimed tie-break would rank B first, but the
comparator uses only the first-arrival share and the stable sort leaves the
original endpoint order, ranking A first. -/
theorem C5_counterexample :
    ((sortedEndpoints ["A", "B"] (run ["A", "B"] [Ev.data "A" 1 10, Ev.data "B" 1 11,
        Ev.data "B" 2 20, Ev.data "A" 2 25]).endpointStats).map Prod.fst = ["A", "B"]) ∧
    firstRatio ((run ["A", "B"] [Ev.data "A" 1 10, Ev.data "B" 1 11, Ev.data "B" 2 20,
        Ev.data "A" 2 25]).endpointStats "A") =
      firstRatio ((run ["A", "B"] [Ev.data "A" 1 10, Ev.data "B" 1 11, Ev.data "B" 2 20,
        Ev.data "A" 2 25]).endpointStats "B") ∧
    avgLatencyWhenSlower ((run ["A", "B"] [Ev.data "A" 1 10, Ev.data "B" 1 11,
        Ev.data "B" 2 20, Ev.data "A" 2 25]).endpointStats "B") <
      avgLatencyWhenSlower ((run ["A", "B"] [Ev.data "A" 1 10, Ev.data "B" 1 11,
        Ev.data "B" 2 20, Ev.data "A" 2 25]).endpointStats "A") := by
  decide

/-- C5 (amended): the final ranking consists of exactly the sources with a
positive measured count (a permutation of the filtered endpoint list), ordered
descending by first-arrival share; sources with equal shares keep their
original endpoint-list order (the sort is stable and uses no latency
tie-break). -/
theorem C5_ranking_filter_sorted_stable (endpoints : List String)
    (stats : String → EndpointStats) :
    List.Perm (sortedEndpoints endpoints stats)
      ((endpoints.map (fun e => (e, stats e))).filter
        (fun p => decide (0 < p.2.totalReceived))) ∧
    List.Pairwise (fun a b => firstRatio b.2 ≤ firstRatio a.2)
      (sortedEndpoints endpoints stats) ∧
    ∀ c : ℚ, (sortedEndpoints endpoints stats).filter
        (fun p => decide (firstRatio p.2 = c)) =
      ((endpoints.map (fun e => (e, stats e))).filter
        (fun p => decide (0 < p.2.totalReceived))).filter
        (fun p => decide (firstRatio p.2 = c)) := by
  refine ⟨jsSort_perm sortLe _, ?_, ?_⟩
  · exact jsSort_sorted (fun p : String × EndpointStats => firstRatio p.2) _
  · intro c
    exact jsSort_filter (fun p : String × EndpointStats => firstRatio p.2) c _

/-! ### Availability bookkeeping -/

lemma scoreEvents_hasData (st : String → EndpointStats) (l : List BlockData) (x : String) :
    (scoreEvents st l x).hasReceivedData = (st x).hasReceivedData := by
  rw [scoreEvents_spec]

lemma flushBucket_hasData (st : BenchState) (e : Nat × List BlockData) (x : String) :
    ((flushBucket st e).endpointStats x).hasReceivedData =
      ((st.endpointStats x)).hasReceivedData := by
  unfold flushBucket
  dsimp only
  split
  · exact scoreEvents_hasData st.endpointStats _ x
  · rfl

lemma foldl_flushBucket_hasData (entries : List (Nat × List BlockData)) (st : BenchState)
    (x : String) :
    (((entries.foldl flushBucket st).endpointStats x)).hasReceivedData =
      ((st.endpointStats x)).hasReceivedData := by
  induction entries generalizing st with
  | nil => rfl
  | cons e rest ih =>
    rw [List.foldl_cons, ih (flushBucket st e)]
    exact flushBucket_hasData st e x

lemma processCollectedData_hasData (σ : BenchState) (x : String) :
    (((processCollectedData σ).endpointStats x)).hasReceivedData =
      ((σ.endpointStats x)).hasReceivedData := by
  unfold processCollectedData
  exact foldl_flushBucket_hasData σ.pendingBlockData σ x

lemma firstEventStep_firstSlot (endpoints : List String) (σ : BenchState) (ep x : String) :
    (firstEventStep endpoints σ ep).firstSlotReceived x =
      (if x = ep then true else σ.firstSlotReceived x) := by
  unfold firstEventStep
  split
  · dsimp only
    split
    · rw [processCollectedData_firstSlot]
    · rfl
  · rename_i hf
    rw [Bool.not_eq_false] at hf
    by_cases hx : x = ep
    · rw [if_pos hx, hx, hf]
    · rw [if_neg hx]

lemma firstEventStep_hasData (endpoints : List String) (σ : BenchState) (ep x : String)
    (hinv : σ.firstSlotReceived ep = (σ.endpointStats ep).hasReceivedData) :
    ((firstEventStep endpoints σ ep).endpointStats x).hasReceivedData =
      (if x = ep then true else (σ.endpointStats x).hasReceivedData) := by
  unfold firstEventStep
  split
  · dsimp only
    split
    · rw [processCollectedData_hasData]
      dsimp only
      rw [setStats_apply]
      by_cases hx : x = ep
      · rw [if_pos hx, if_pos hx]
      · rw [if_neg hx, if_neg hx]
    · dsimp only
      rw [setStats_apply]
      by_cases hx : x = ep
      · rw [if_pos hx, if_pos hx]
      · rw [if_neg hx, if_neg hx]
  · rename_i hf
    rw [Bool.not_eq_false] at hf
    by_cases hx : x = ep
    · rw [if_pos hx, hx, ← hinv, hf]
    · rw [if_neg hx]

lemma all_of_dedup_filter_length (endpoints : List String) (p : String → Bool)
    (h : (endpoints.dedup.filter p).length = endpoints.length) :
    ∀ e ∈ endpoints, p e := by
  intro e he
  have h1 : endpoints.dedup.length ≤ endpoints.length :=
    (List.dedup_sublist endpoints).length_le
  have h2 : (endpoints.dedup.filter p).length ≤ endpoints.dedup.length :=
    List.length_filter_le p endpoints.dedup
  have h3 : (endpoints.dedup.filter p).length = endpoints.dedup.length := by omega
  have h4 : ∀ a ∈ endpoints.dedup, p a := by
    rw [← List.countP_eq_length_filter, List.countP_eq_length] at h3
    exact h3
  exact h4 e (List.mem_dedup.mpr he)

lemma firstEventStep_started_cases (endpoints : List String) (σ : BenchState) (ep : String) :
    (firstEventStep endpoints σ ep).startedFormalStats = σ.startedFormalStats ∨
    (σ.startedFormalStats = false ∧
      (firstEventStep endpoints σ ep).startedFormalStats = true ∧
      ∀ e ∈ endpoints, ((firstEventStep endpoints σ ep).endpointStats e).hasReceivedData = true) := by
  unfold firstEventStep
  split
  · dsimp only
    split
    · rename_i hcond
      right
      refine ⟨hcond.1, by rw [processCollectedData_started], ?_⟩
      intro e he
      rw [processCollectedData_hasData]
      exact all_of_dedup_filter_length endpoints _ hcond.2 e he
    · left
      rfl
  · left
    rfl

lemma handleDataPre_firstSlot (endpoints : List String) (σ : BenchState) (ep : String)
    (k : Nat) (t : ℚ) :
    (handleDataPre endpoints σ ep k t).firstSlotReceived =
      (firstEventStep endpoints σ ep).firstSlotReceived := rfl

lemma handleDataPre_stats (endpoints : List String) (σ : BenchState) (ep : String)
    (k : Nat) (t : ℚ) :
    (handleDataPre endpoints σ ep k t).endpointStats =
      (firstEventStep endpoints σ ep).endpointStats := rfl

lemma handleDataPre_started (endpoints : List String) (σ : BenchState) (ep : String)
    (k : Nat) (t : ℚ) :
    (handleDataPre endpoints σ ep k t).startedFormalStats =
      (firstEventStep endpoints σ ep).startedFormalStats := rfl

lemma handleData_active (endpoints : List String) (σ : BenchState) (ep : String)
    (k : Nat) (t : ℚ) :
    (handleData endpoints σ ep k t).activeEndpoints = σ.activeEndpoints := by
  unfold handleData
  dsimp only
  split
  · rw [handleDataPre_active]
  · split
    · rw [handleDataPre_active]
    · rw [handleDataPre_active]

lemma handleData_firstSlot (endpoints : List String) (σ : BenchState) (ep : String)
    (k : Nat) (t : ℚ) :
    (handleData endpoints σ ep k t).firstSlotReceived =
      (firstEventStep endpoints σ ep).firstSlotReceived := by
  unfold handleData
  dsimp only
  split
  · rw [handleDataPre_firstSlot]
  · split
    · rw [handleDataPre_firstSlot]
    · rw [handleDataPre_firstSlot]

lemma handleData_started (endpoints : List String) (σ : BenchState) (ep : String)
    (k : Nat) (t : ℚ) :
    (handleData endpoints σ ep k t).startedFormalStats =
      (firstEventStep endpoints σ ep).startedFormalStats := by
  unfold handleData
  dsimp only
  split
  · rw [handleDataPre_started]
  · split
    · rw [handleDataPre_started]
    · rw [handleDataPre_started]

lemma handleData_hasData (endpoints : List String) (σ : BenchState) (ep : String)
    (k : Nat) (t : ℚ) (x : String) :
    ((handleData endpoints σ ep k t).endpointStats x).hasReceivedData =
      (((firstEventStep endpoints σ ep).endpointStats x)).hasReceivedData := by
  unfold handleData
  dsimp only
  split
  · rw [handleDataPre_stats]
  · split
    · rw [scoreEvents_hasData, handleDataPre_stats]
    · rw [handleDataPre_stats]

lemma timeoutMark_firstSlot (endpoints : List String) (σ : BenchState) :
    (timeoutMark endpoints σ).firstSlotReceived = σ.firstSlotReceived := by
  unfold timeoutMark
  induction endpoints generalizing σ with
  | nil => rfl
  | cons q rest ih =>
    rw [List.foldl_cons]
    split
    · rw [ih]
    · rw [ih]

lemma timeoutMark_started (endpoints : List String) (σ : BenchState) :
    (timeoutMark endpoints σ).startedFormalStats = σ.startedFormalStats := by
  unfold timeoutMark
  induction endpoints generalizing σ with
  | nil => rfl
  | cons q rest ih =>
    rw [List.foldl_cons]
    split
    · rw [ih]
    · rw [ih]

lemma timeoutMark_hasData (endpoints : List String) (σ : BenchState) (x : String) :
    ((timeoutMark endpoints σ).endpointStats x).hasReceivedData =
      ((σ.endpointStats x)).hasReceivedData := by
  unfold timeoutMark
  induction endpoints generalizing σ with
  | nil => rfl
  | cons q rest ih =>
    rw [List.foldl_cons]
    split
    · rw [ih]
      dsimp only
      rw [setStats_apply]
      by_cases hx : x = q
      · rw [if_pos hx, hx]
      · rw [if_neg hx]
    · rw [ih]

lemma timeoutMark_active_subset (endpoints : List String) (σ : BenchState) :
    (timeoutMark endpoints σ).activeEndpoints ⊆ σ.activeEndpoints := by
  unfold timeoutMark
  induction endpoints generalizing σ with
  | nil => exact fun a ha => ha
  | cons q rest ih =>
    rw [List.foldl_cons]
    split
    · refine (ih _).trans ?_
      dsimp only
      exact List.erase_subset q σ.activeEndpoints
    · exact ih σ

lemma timeoutMark_nodup (endpoints : List String) (σ : BenchState)
    (h : σ.activeEndpoints.Nodup) : (timeoutMark endpoints σ).activeEndpoints.Nodup := by
  unfold timeoutMark
  induction endpoints generalizing σ with
  | nil => exact h
  | cons q rest ih =>
    rw [List.foldl_cons]
    split
    · exact ih _ (h.erase q)
    · exact ih σ h

lemma timeoutMark_silent_removed (endpoints : List String) (σ : BenchState)
    (hnd : σ.activeEndpoints.Nodup) (ep : String) (hep : ep ∈ endpoints)
    (hf : σ.firstSlotReceived ep = false) :
    ep ∉ (timeoutMark endpoints σ).activeEndpoints := by
  unfold timeoutMark
  induction endpoints generalizing σ with
  | nil => cases hep
  | cons q rest ih =>
    rw [List.foldl_cons]
    rcases List.mem_cons.mp hep with hq | hrest
    · rw [hq]
      rw [hq] at hf
      rw [if_pos hf]
      intro hmem
      have hsub := timeoutMark_active_subset rest
        { σ with
          endpointStats := setStats σ.endpointStats q
            { σ.endpointStats q with isAvailable := false },
          activeEndpoints := σ.activeEndpoints.erase q }
      have : q ∈ σ.activeEndpoints.erase q := hsub hmem
      exact (hnd.not_mem_erase) this
    · split
      · exact ih _ (hnd.erase _) hrest (by dsimp only; exact hf)
      · exact ih σ hnd hrest hf

/-- The reachable-state invariant tying liveness bookkeeping together: the
active set is a duplicate-free subset of the configured endpoints, the
first-event flag coincides with the per-endpoint `hasReceivedData` flag, and
once the live phase has started every active endpoint has produced its first
event. -/
def Rinv (endpoints : List String) (σ : BenchState) : Prop :=
  σ.activeEndpoints ⊆ endpoints ∧
  σ.activeEndpoints.Nodup ∧
  (∀ x, σ.firstSlotReceived x = (σ.endpointStats x).hasReceivedData) ∧
  (σ.startedFormalStats = true → ∀ a ∈ σ.activeEndpoints, σ.firstSlotReceived a = true)

lemma Rinv_init (endpoints : List String) : Rinv endpoints (initState endpoints) := by
  refine ⟨List.dedup_subset endpoints, List.nodup_dedup endpoints, fun x => rfl, ?_⟩
  intro h
  cases h

lemma Rinv_handleData (endpoints : List String) (σ : BenchState) (ep : String)
    (k : Nat) (t : ℚ) (h : Rinv endpoints σ) :
    Rinv endpoints (handleData endpoints σ ep k t) := by
  obtain ⟨hsub, hnd, hfh, himp⟩ := h
  refine ⟨?_, ?_, ?_, ?_⟩
  · rw [handleData_active]
    exact hsub
  · rw [handleData_active]
    exact hnd
  · intro x
    rw [handleData_firstSlot, handleData_hasData, firstEventStep_firstSlot,
      firstEventStep_hasData endpoints σ ep x (hfh ep)]
    by_cases hx : x = ep
    · rw [if_pos hx, if_pos hx]
    · rw [if_neg hx, if_neg hx]
      exact hfh x
  · intro hstart a ha
    rw [handleData_active] at ha
    rw [handleData_firstSlot, firstEventStep_firstSlot]
    by_cases hx : a = ep
    · rw [if_pos hx]
    · rw [if_neg hx]
      rw [handleData_started] at hstart
      rcases firstEventStep_started_cases endpoints σ ep with hsame | ⟨hold, hnew, hall⟩
      · rw [hsame] at hstart
        exact himp hstart a ha
      · have hdata := hall a (hsub ha)
        rw [firstEventStep_hasData endpoints σ ep a (hfh ep), if_neg hx] at hdata
        rw [hfh a]
        exact hdata

lemma Rinv_handleError (endpoints : List String) (σ : BenchState) (ep : String)
    (h : Rinv endpoints σ) : Rinv endpoints (handleError σ ep) := by
  obtain ⟨hsub, hnd, hfh, himp⟩ := h
  refine ⟨?_, ?_, ?_, ?_⟩
  · exact (List.erase_subset ep σ.activeEndpoints).trans hsub
  · exact hnd.erase ep
  · intro x
    unfold handleError
    dsimp only
    rw [setStats_apply]
    by_cases hx : x = ep
    · rw [if_pos hx]
      dsimp only
      rw [hx]
      exact hfh ep
    · rw [if_neg hx]
      exact hfh x
  · intro hstart a ha
    exact himp hstart a (List.erase_subset ep σ.activeEndpoints ha)

lemma Rinv_handleTimeout (endpoints : List String) (σ : BenchState)
    (h : Rinv endpoints σ) : Rinv endpoints (handleTimeout endpoints σ) := by
  obtain ⟨hsub, hnd, hfh, himp⟩ := h
  have hsub1 : (timeoutMark endpoints σ).activeEndpoints ⊆ endpoints :=
    (timeoutMark_active_subset endpoints σ).trans hsub
  have hnd1 := timeoutMark_nodup endpoints σ hnd
  have hfh1 : ∀ x, (timeoutMark endpoints σ).firstSlotReceived x =
      (((timeoutMark endpoints σ).endpointStats x)).hasReceivedData := by
    intro x
    rw [timeoutMark_firstSlot, timeoutMark_hasData]
    exact hfh x
  unfold handleTimeout
  dsimp only
  split
  · refine ⟨?_, ?_, ?_, ?_⟩
    · rw [processCollectedData_active]
      exact hsub1
    · rw [processCollectedData_active]
      exact hnd1
    · intro x
      rw [processCollectedData_firstSlot, processCollectedData_hasData]
      exact hfh1 x
    · intro hstart a ha
      rw [processCollectedData_active] at ha
      rw [processCollectedData_firstSlot]
      dsimp only at ha ⊢
      rw [timeoutMark_firstSlot]
      by_cases hfa : σ.firstSlotReceived a = false
      · exfalso
        have hmem : a ∈ (timeoutMark endpoints σ).activeEndpoints := ha
        have hain : a ∈ endpoints := hsub1 ha
        exact timeoutMark_silent_removed endpoints σ hnd a hain hfa hmem
      · rw [Bool.not_eq_false] at hfa
        exact hfa
  · refine ⟨hsub1, hnd1, hfh1, ?_⟩
    intro hstart a ha
    rw [timeoutMark_started] at hstart
    rw [timeoutMark_firstSlot]
    exact himp hstart a (timeoutMark_active_subset endpoints σ ha)

lemma Rinv_step (endpoints : List String) (σ : BenchState) (e : Ev)
    (h : Rinv endpoints σ) : Rinv endpoints (step endpoints σ e) := by
  cases e with
  | data ep k t => exact Rinv_handleData endpoints σ ep k t h
  | streamError ep => exact Rinv_handleError endpoints σ ep h
  | availabilityTimeout => exact Rinv_handleTimeout endpoints σ h

lemma Rinv_run (endpoints : List String) (evs : List Ev) :
    Rinv endpoints (run endpoints evs) := by
  unfold run
  have hfold : ∀ (xs : List Ev) (σ : BenchState), Rinv endpoints σ →
      Rinv endpoints (xs.foldl (step endpoints) σ) := by
    intro xs
    induction xs with
    | nil => exact fun σ h => h
    | cons e rest ih =>
      intro σ h
      rw [List.foldl_cons]
      exact ih (step endpoints σ e) (Rinv_step endpoints σ e h)
  exact hfold evs (initState endpoints) (Rinv_init endpoints)

/-! ### Inactive sources never contribute again -/

lemma counters_setStats (f : String → EndpointStats) (q : String) (s : EndpointStats)
    (x : String) (hc : counters s = counters (f q)) :
    counters ((setStats f q s) x) = counters (f x) := by
  rw [setStats_apply]
  by_cases hx : x = q
  · rw [if_pos hx, hx]
    exact hc
  · rw [if_neg hx]

lemma flushBucket_stats_not_active (st : BenchState) (e : Nat × List BlockData)
    (ep : String) (hni : ep ∉ st.activeEndpoints) :
    (flushBucket st e).endpointStats ep = st.endpointStats ep := by
  unfold flushBucket
  dsimp only
  split
  · apply scoreEvents_eq_of_countP_zero
    rw [List.countP_eq_zero]
    intro bd hbd hc
    have hmem := List.of_mem_filter hbd
    have hact : st.activeEndpoints.contains bd.endpoint = true := Bool.and_elim_left hmem
    have hin : bd.endpoint ∈ st.activeEndpoints := by simpa using hact
    have heq : bd.endpoint = ep := by simpa using hc
    rw [heq] at hin
    exact hni hin
  · rfl

lemma foldl_flushBucket_stats_not_active (entries : List (Nat × List BlockData))
    (st : BenchState) (ep : String) (hni : ep ∉ st.activeEndpoints) :
    (entries.foldl flushBucket st).endpointStats ep = st.endpointStats ep := by
  induction entries generalizing st with
  | nil => rfl
  | cons e rest ih =>
    rw [List.foldl_cons, ih (flushBucket st e) (by rw [flushBucket_active]; exact hni)]
    exact flushBucket_stats_not_active st e ep hni

lemma processCollectedData_stats_not_active (σ : BenchState) (ep : String)
    (hni : ep ∉ σ.activeEndpoints) :
    (processCollectedData σ).endpointStats ep = σ.endpointStats ep := by
  unfold processCollectedData
  exact foldl_flushBucket_stats_not_active σ.pendingBlockData σ ep hni

lemma firstEventStep_counters_not_active (endpoints : List String) (σ : BenchState)
    (q ep : String) (hni : ep ∉ σ.activeEndpoints) :
    counters ((firstEventStep endpoints σ q).endpointStats ep) =
      counters (σ.endpointStats ep) := by
  unfold firstEventStep
  split
  · dsimp only
    split
    · refine Eq.trans (congrArg counters
        (processCollectedData_stats_not_active _ ep hni)) ?_
      exact counters_setStats σ.endpointStats q _ ep rfl
    · exact counters_setStats σ.endpointStats q _ ep rfl
  · rfl

lemma handleData_counters_not_active (endpoints : List String) (σ : BenchState)
    (q : String) (k : Nat) (t : ℚ) (ep : String)
    (hnd : σ.activeEndpoints.Nodup) (hni : ep ∉ σ.activeEndpoints) :
    counters ((handleData endpoints σ q k t).endpointStats ep) =
      counters (σ.endpointStats ep) := by
  have hpre : counters ((handleDataPre endpoints σ q k t).endpointStats ep) =
      counters (σ.endpointStats ep) := by
    rw [handleDataPre_stats]
    exact firstEventStep_counters_not_active endpoints σ q ep hni
  unfold handleData
  dsimp only
  split
  · exact hpre
  · split
    · rename_i hstart hc
      have hnd2 : (handleDataPre endpoints σ q k t).activeEndpoints.Nodup := by
        rw [handleDataPre_active]
        exact hnd
      have hzero : (getList (handleDataPre endpoints σ q k t).blockDataBySlot k).countP
          (fun bd => bd.endpoint == ep) = 0 := by
        rw [List.countP_eq_zero]
        intro bd hbd hcep
        have hin := scoring_endpoint_mem_active _ k hnd2 hc bd hbd
        rw [handleDataPre_active] at hin
        have heq : bd.endpoint = ep := by simpa using hcep
        rw [heq] at hin
        exact hni hin
      dsimp only
      rw [scoreEvents_eq_of_countP_zero _ _ _ hzero]
      exact hpre
    · exact hpre

lemma timeoutMark_counters (endpoints : List String) (σ : BenchState) (x : String) :
    counters ((timeoutMark endpoints σ).endpointStats x) =
      counters (σ.endpointStats x) := by
  unfold timeoutMark
  induction endpoints generalizing σ with
  | nil => rfl
  | cons q rest ih =>
    rw [List.foldl_cons]
    split
    · rw [ih]
      dsimp only
      exact counters_setStats σ.endpointStats q _ x rfl
    · rw [ih]

lemma step_counters_not_active (endpoints : List String) (σ : BenchState) (e : Ev)
    (ep : String) (hnd : σ.activeEndpoints.Nodup) (hni : ep ∉ σ.activeEndpoints) :
    counters ((step endpoints σ e).endpointStats ep) = counters (σ.endpointStats ep) := by
  cases e with
  | data q k t => exact handleData_counters_not_active endpoints σ q k t ep hnd hni
  | streamError q =>
    unfold step handleError
    dsimp only
    exact counters_setStats σ.endpointStats q _ ep rfl
  | availabilityTimeout =>
    unfold step handleTimeout
    dsimp only
    split
    · refine Eq.trans (congrArg counters (processCollectedData_stats_not_active _ ep
        (fun hmem => hni (timeoutMark_active_subset endpoints σ hmem)))) ?_
      exact timeoutMark_counters endpoints σ ep
    · exact timeoutMark_counters endpoints σ ep

lemma step_active_subset (endpoints : List String) (σ : BenchState) (e : Ev) :
    (step endpoints σ e).activeEndpoints ⊆ σ.activeEndpoints := by
  cases e with
  | data q k t =>
    rw [step, handleData_active]
    exact fun a ha => ha
  | streamError q =>
    exact List.erase_subset q σ.activeEndpoints
  | availabilityTimeout =>
    unfold step handleTimeout
    dsimp only
    split
    · rw [processCollectedData_active]
      exact timeoutMark_active_subset endpoints σ
    · exact timeoutMark_active_subset endpoints σ

/-! ### Claim C8 -/

/-- C8 (confirmed): liveness demotion is permanent.  In any reachable state,
(1) once the live phase has started, every endpoint still in the active set
has produced a first event — a source silent past the grace deadline is
removed before the live phase starts; (2) no event ever adds an endpoint back
to the active set; and (3) once an endpoint is out of the active set, no
further event of any kind changes its scored statistics (first-arrival count,
measured count, latency sum, samples), even if it resumes sending. -/
theorem C8_inactive_permanence (endpoints : List String) (evs : List Ev) :
    ((run endpoints evs).startedFormalStats = true →
      ∀ a ∈ (run endpoints evs).activeEndpoints,
        (run endpoints evs).firstSlotReceived a = true) ∧
    (∀ e, (step endpoints (run endpoints evs) e).activeEndpoints ⊆
      (run endpoints evs).activeEndpoints) ∧
    (∀ ep e, ep ∉ (run endpoints evs).activeEndpoints →
      counters ((step endpoints (run endpoints evs) e).endpointStats ep) =
        counters ((run endpoints evs).endpointStats ep)) := by
  obtain ⟨hsub, hnd, hfh, himp⟩ := Rinv_run endpoints evs
  exact ⟨himp, fun e => step_active_subset endpoints _ e,
    fun ep e hni => step_counters_not_active endpoints _ e ep hnd hni⟩

/-- Witness for `C8_inactive_permanence`: C stays silent through the grace
timeout, the live phase starts with A and B, and a later resumed event from C
leaves C's counters untouched. -/
theorem C8_witness :
    (run ["A", "B", "C"] [Ev.data "A" 1 10, Ev.data "B" 2 11,
        Ev.availabilityTimeout]).startedFormalStats = true ∧
    (run ["A", "B", "C"] [Ev.data "A" 1 10, Ev.data "B" 2 11,
        Ev.availabilityTimeout]).firstSlotReceived "A" = true ∧
    "C" ∉ (run ["A", "B", "C"] [Ev.data "A" 1 10, Ev.data "B" 2 11,
        Ev.availabilityTimeout]).activeEndpoints ∧
    counters ((step ["A", "B", "C"] (run ["A", "B", "C"] [Ev.data "A" 1 10,
        Ev.data "B" 2 11, Ev.availabilityTimeout])
        (Ev.data "C" 9 99)).endpointStats "C") =
      counters ((run ["A", "B", "C"] [Ev.data "A" 1 10, Ev.data "B" 2 11,
        Ev.availabilityTimeout]).endpointStats "C") :=
  ⟨by decide,
    (C8_inactive_permanence ["A", "B", "C"] [Ev.data "A" 1 10, Ev.data "B" 2 11,
      Ev.availabilityTimeout]).1 (by decide) "A" (by decide),
    by decide,
    (C8_inactive_permanence ["A", "B", "C"] [Ev.data "A" 1 10, Ev.data "B" 2 11,
      Ev.availabilityTimeout]).2.2 "C" (Ev.data "C" 9 99) (by decide)⟩

end XbitBench
